import Mathlib

/-!
Verification development for the influxdb httpd handler (src/httpd/handler.go)
and the influxd run/bootstrap code appended to the same file.  The Go code is
shallowly embedded: each handler becomes a pure Lean function over an explicit
response-writer state and an environment record holding the outcomes of the
external collaborators (query engine, storage, decoder, ...).  Machine integers
are modelled as Nat / Int; fallible collaborator calls are Except-valued.
-/

set_option autoImplicit false

universe u

deriving instance DecidableEq for Except

/-- Model of the Go net/http ResponseWriter contract.  Per its documentation,
WriteHeader sends the status line together with a snapshot of the current
header map, a second WriteHeader call has no effect, a Write before any
WriteHeader implicitly sends status 200, and changes to the header map made
after WriteHeader are not transmitted.  The field sentHeaders records the
snapshot actually sent; headers records the in-memory map; body records the
sequence of payloads written (one abstract entry per Write call). -/
structure RW (β : Type u) where
  headers : List (String × String)
  status : Option Nat
  sentHeaders : List (String × String)
  body : List β
deriving DecidableEq

/-- Fresh response writer handed to a handler. -/
def RW.init {β : Type u} : RW β := ⟨[], none, [], []⟩

/-- Embeds w.WriteHeader(code): first call snapshots the header map and fixes
the status; later calls are ignored. -/
def RW.writeHeader {β : Type u} (w : RW β) (code : Nat) : RW β :=
  match w.status with
  | some _ => w
  | none => { w with status := some code, sentHeaders := w.headers }

/-- Embeds w.Header().Add(k, v): mutates the in-memory header map only.  The
transmitted snapshot is unaffected if the status line was already written. -/
def RW.headerAdd {β : Type u} (w : RW β) (k v : String) : RW β :=
  { w with headers := w.headers ++ [(k, v)] }

/-- Embeds w.Write(b): an implicit WriteHeader(200) if none was sent yet, then
the payload is appended to the response body stream. -/
def RW.write {β : Type u} (w : RW β) (b : β) : RW β :=
  let w2 := w.writeHeader 200
  { w2 with body := w2.body ++ [b] }

/-! ### Error classification helpers (handler.go lines 837-853)

Go errors are modelled as a flag telling whether the dynamic type is
influxdb.ErrAuthorize (checked by isAuthorizationError through a type
assertion) together with the text returned by the Error method, kept as a list
of characters so that the string functions reduce well. -/

structure GoErr where
  isAuthorize : Bool
  msg : List Char
deriving DecidableEq

/-- List-level embedding of strings.HasPrefix. -/
def hasPrefixL : List Char → List Char → Bool
  | [], _ => true
  | _ :: _, [] => false
  | p :: ps, c :: cs => p == c && hasPrefixL ps cs

/-- List-level embedding of strings.HasSuffix. -/
def hasSuffixL (p s : List Char) : Bool :=
  hasPrefixL p.reverse s.reverse

/-- List-level embedding of strings.Contains. -/
def containsL (p : List Char) : List Char → Bool
  | [] => hasPrefixL p []
  | c :: cs => hasPrefixL p (c :: cs) || containsL p cs

/-- Embeds isAuthorizationError: a dynamic type test for influxdb.ErrAuthorize. -/
def isAuthorizationError (e : GoErr) : Bool := e.isAuthorize

/-- Embeds isMeasurementNotFoundError (handler.go line 842). -/
def isMeasurementNotFoundError (e : GoErr) : Bool :=
  hasPrefixL "measurement".toList e.msg && hasSuffixL "not found".toList e.msg
    || containsL "measurement not found".toList e.msg

/-- Embeds isTagNotFoundError (handler.go line 847). -/
def isTagNotFoundError (e : GoErr) : Bool :=
  hasPrefixL "unknown field or tag name".toList e.msg

/-- Embeds isFieldNotFoundError (handler.go line 851). -/
def isFieldNotFoundError (e : GoErr) : Bool :=
  hasPrefixL "field not found".toList e.msg

/-! ### serveQuery (handler.go lines 193-295)

A statement result as consumed from the engine result channel: statement id,
the ordered series payload (series entries are not inspected by the handler, hence a
type parameter), and an optional error. -/

structure QResult (α : Type u) where
  statementID : Nat
  series : List α
  err : Option GoErr
deriving DecidableEq

/-- Embeds the buffered-mode accumulation step (handler.go lines 280-288): if
the accumulator is empty append the result, else if the last entry shares the
statement id extend its series in place, else append a new entry. -/
def buffStep {α : Type u} (res : List (QResult α)) (r : QResult α) : List (QResult α) :=
  match res.getLast? with
  | none => res ++ [r]
  | some lastR =>
    if lastR.statementID = r.statementID then
      res.dropLast ++ [{ lastR with series := lastR.series ++ r.series }]
    else
      res ++ [r]

/-- Buffered results after draining the whole channel, starting from the empty
accumulator as serveQuery does. -/
def mergeResults {α : Type u} (rs : List (QResult α)) : List (QResult α) :=
  rs.foldl buffStep []

/-- State threaded through the serveQuery result loop: the response writer, the
statusWritten flag and the in-memory accumulator res.Results. -/
structure QState (α : Type u) where
  w : RW (List (QResult α))
  statusWritten : Bool
  res : List (QResult α)

/-- Embeds one iteration of the serveQuery result loop (handler.go lines
243-289): write the status from this result if none was written yet, skip nil
results, then either flush a one-result envelope (chunked) or accumulate. -/
def queryStep {α : Type u} (chunked : Bool) (s : QState α) (r : Option (QResult α)) : QState α :=
  let s1 :=
    if s.statusWritten then s
    else
      { s with
        w := s.w.writeHeader
          (match r with
           | some rr =>
             match rr.err with
             | some e =>
               if isAuthorizationError e then 401
               else if isMeasurementNotFoundError e then 200
               else if isTagNotFoundError e then 200
               else if isFieldNotFoundError e then 200
               else 500
             | none => 200
           | none => 200)
        statusWritten := true }
  match r with
  | none => s1
  | some rr =>
    if chunked then { s1 with w := s1.w.write [rr] }
    else { s1 with res := buffStep s1.res rr }

/-- Embeds serveQuery from the engine call onward (handler.go lines 227-295).
The engine outcome is the collaborator input: either a top-level error or the
full sequence of (possibly nil) results delivered by the channel.  Envelope
marshalling is abstracted: each Write carries the envelope result list. -/
def serveQueryE {α : Type u} (engine : Except GoErr (List (Option (QResult α))))
    (chunked : Bool) : RW (List (QResult α)) :=
  let w0 : RW (List (QResult α)) := RW.init.headerAdd "content-type" "application/json"
  match engine with
  | .error err =>
    if isAuthorizationError err then w0.writeHeader 401 else w0.writeHeader 500
  | .ok results =>
    let s := results.foldl (queryStep chunked) ⟨w0, false, []⟩
    if chunked then s.w else s.w.write s.res

/-- Status classifier exactly as claim C1 states it: evaluated on the first
result only; no error (including a nil result) gives 200, an authorization
error gives 401, the three schema-absence errors give 200, anything else 500. -/
def claimStatus {α : Type u} (r : Option (QResult α)) : Nat :=
  match r with
  | none => 200
  | some rr =>
    match rr.err with
    | none => 200
    | some e =>
      if isAuthorizationError e then 401
      else if isMeasurementNotFoundError e then 200
      else if isTagNotFoundError e then 200
      else if isFieldNotFoundError e then 200
      else 500

/-! ### serveRunMapper (handler.go lines 739-830)

The local mapper is modelled by two oracles indexed by the number of
NextInterval calls already made: next k is the outcome of the k-th
NextInterval call, and isEmpty k is the value of lm.IsEmpty(m.TMax) once k
calls have been made.  Frames are the MapResponse messages written to the
client; json.Marshal of an interval value and of a MapResponse cannot fail for
these shapes and is modelled as total. -/

inductive Frame (V : Type u) where
  | interval (v : Option V)
  | completed
  | err (e : String)
deriving DecidableEq

/-- Embeds the serveRunMapper streaming loop (handler.go lines 781-821) plus
the terminal completed frame written after it (lines 823-829), with explicit
fuel; a none return means the loop was still running after the given number of
iterations.  cs is the mutable m.ChunkSize counter (a Go int, modelled as an
unbounded Int), isRaw the mode flag computed from the call expression. -/
def mapperLoop {V : Type u} (next : Nat → Except String (Option V)) (isEmpty : Nat → Bool)
    (isRaw : Bool) (cs : Int) : Nat → Nat → Option (List (Frame V))
  | _, 0 => none
  | k, fuel + 1 =>
    match next k with
    | .error e => some [Frame.err e]
    | .ok v =>
      if v.isNone && isEmpty (k + 1) then some [Frame.completed]
      else if isRaw then
        if isEmpty (k + 1) then some [Frame.interval v, Frame.completed]
        else (mapperLoop next isEmpty isRaw cs (k + 1) fuel).map (fun l => Frame.interval v :: l)
      else
        if cs - 1 = 0 then some [Frame.interval v, Frame.completed]
        else if isEmpty (k + 1) then some [Frame.interval v, Frame.completed]
        else (mapperLoop next isEmpty (isRaw) (cs - 1) (k + 1) fuel).map
          (fun l => Frame.interval v :: l)

/-- Decoded RemoteMapper request fields used by the session (TMin and TMax are
consumed only through Begin and the isEmpty oracle). -/
structure MapperReq where
  tmin : Int
  tmax : Int
  chunkSize : Int
deriving DecidableEq

/-- Collaborator outcomes for one serveRunMapper request: body decoding,
StartLocalMapper, Open, CallExpr parsing, Begin, and the mapper oracles. -/
structure MapperEnv (V : Type u) where
  decode : Except String MapperReq
  startLocalMapper : Except String Unit
  openMapper : Except String Unit
  callExpr : Except String (Option Unit)
  beginMapper : Except String Unit
  next : Nat → Except String (Option V)
  isEmpty : Nat → Bool

/-- Embeds serveRunMapper: each failing setup step writes a single error frame
and stops; otherwise the mode flag is raw exactly when the call expression is
absent and the streaming loop runs.  The HTTP status is always 200 and is not
modelled further. -/
def serveRunMapperE {V : Type u} (env : MapperEnv V) (fuel : Nat) : Option (List (Frame V)) :=
  match env.decode with
  | .error e => some [Frame.err e]
  | .ok req =>
    match env.startLocalMapper with
    | .error e => some [Frame.err e]
    | .ok _ =>
      match env.openMapper with
      | .error e => some [Frame.err e]
      | .ok _ =>
        match env.callExpr with
        | .error e => some [Frame.err e]
        | .ok call =>
          match env.beginMapper with
          | .error e => some [Frame.err e]
          | .ok _ => mapperLoop env.next env.isEmpty call.isNone req.chunkSize 0 fuel

/-- Two's-complement wrap onto the signed 64-bit range, the behaviour of a Go
int on a 64-bit platform: the result is congruent to the argument modulo 2^64
and lies in the interval from -(2^63) to 2^63 - 1. -/
def wrap64 (n : Int) : Int :=
  (n + 2 ^ 63) % 2 ^ 64 - 2 ^ 63

/-- The serveRunMapper streaming loop again (handler.go lines 781-821), with
the machine-integer semantics of the m.ChunkSize-- decrement at line 811 made
explicit: the counter wraps around the signed 64-bit range instead of being
unbounded.  Since a decoded in-range counter stays in range under wrap64, this
is the loop as Go executes it; mapperLoop is the same loop with the counter
unbounded, and the two coincide whenever no decrement wraps, in particular for
every raw-mode run and for every aggregate run from a positive counter. -/
def mapperLoopW {V : Type u} (next : Nat → Except String (Option V)) (isEmpty : Nat → Bool)
    (isRaw : Bool) (cs : Int) : Nat → Nat → Option (List (Frame V))
  | _, 0 => none
  | k, fuel + 1 =>
    match next k with
    | .error e => some [Frame.err e]
    | .ok v =>
      if v.isNone && isEmpty (k + 1) then some [Frame.completed]
      else if isRaw then
        if isEmpty (k + 1) then some [Frame.interval v, Frame.completed]
        else (mapperLoopW next isEmpty isRaw cs (k + 1) fuel).map
          (fun l => Frame.interval v :: l)
      else
        if wrap64 (cs - 1) = 0 then some [Frame.interval v, Frame.completed]
        else if isEmpty (k + 1) then some [Frame.interval v, Frame.completed]
        else (mapperLoopW next isEmpty (isRaw) (wrap64 (cs - 1)) (k + 1) fuel).map
          (fun l => Frame.interval v :: l)

/-! ### serveWrite (handler.go lines 461-541) -/

/-- Decoded client.BatchPoints fields the handler inspects. -/
structure BatchPointsM where
  database : String
  retentionPolicy : String
deriving DecidableEq

/-- Authenticated principal: name plus the outcome of Authorize for the write
privilege on a given database. -/
structure UserM where
  name : String
  authorize : String → Bool

/-- Embeds the user.Authorize call; unreachable with a nil user because the
handler checks for a nil user first when authentication is required. -/
def userAuthorize (u : Option UserM) (db : String) : Bool :=
  match u with
  | none => false
  | some user => user.authorize db

/-- Collaborator outcomes for one serveWrite request, from body decoding
onward.  A decode failure carries the text of the Error method (the handler
compares it with the string EOF). -/
structure WriteEnv where
  decode : Except String BatchPointsM
  dbExists : String → Bool
  requireAuthentication : Bool
  user : Option UserM
  normalize : Except String Unit
  writeSeries : Except String Nat

/-- Embeds the writeError helper of serveWrite: content-type header, status,
then the encoded error result as the body. -/
def writeErrorE (w : RW String) (msg : String) (code : Nat) : RW String :=
  ((w.headerAdd "content-type" "application/json").writeHeader code).write msg

/-- Embeds serveWrite from the decode step (handler.go lines 499-540).  The
second component records whether the replicated write path WriteSeries was
invoked. -/
def serveWriteE (env : WriteEnv) : RW String × Bool :=
  let w : RW String := RW.init
  match env.decode with
  | .error e =>
    if e = "EOF" then (w.writeHeader 200, false)
    else (writeErrorE w e 500, false)
  | .ok bp =>
    if bp.database = "" then (writeErrorE w "database is required" 500, false)
    else if !(env.dbExists bp.database) then
      (writeErrorE w ("database not found: " ++ bp.database) 404, false)
    else if env.requireAuthentication && env.user.isNone then
      (writeErrorE w ("user is required to write to database " ++ bp.database) 401, false)
    else if env.requireAuthentication && !(userAuthorize env.user bp.database) then
      (writeErrorE w ("user is not authorized to write to database " ++ bp.database) 401, false)
    else
      match env.normalize with
      | .error e => (writeErrorE w e 500, false)
      | .ok _ =>
        match env.writeSeries with
        | .error e => (writeErrorE w e 500, true)
        | .ok index => ((w.writeHeader 200).headerAdd "X-InfluxDB-Index" (toString index), true)

/-! ### serveWait (handler.go lines 614-657) and its parameter parsing -/

/-- Base-10 digit accumulation shared by the strconv models: none on an empty
string or any non-digit character, otherwise the numeric value. -/
def digitsVal? (cs : List Char) : Option Nat :=
  if cs.isEmpty then none
  else
    cs.foldl
      (fun acc c =>
        match acc with
        | none => none
        | some a => if c.isDigit then some (a * 10 + (c.toNat - 48)) else none)
      (some 0)

/-- Embeds strconv.ParseUint(s, 10, 64) with the error ignored, as serveWait
does: syntax errors yield 0, range overflow yields the clamped maximum. -/
def goParseUint64 (s : String) : Nat :=
  match digitsVal? s.toList with
  | none => 0
  | some v => if v < 2 ^ 64 then v else 2 ^ 64 - 1

/-- Sign handling of strconv.Atoi: an optional leading plus or minus followed
by at least one digit. -/
def atoiParse : List Char → Option Int
  | [] => none
  | '+' :: cs => (digitsVal? cs).map (fun n => (n : Int))
  | '-' :: cs => (digitsVal? cs).map (fun n => -(n : Int))
  | cs => (digitsVal? cs).map (fun n => (n : Int))

/-- Embeds strconv.Atoi with the error ignored, as serveWait does: syntax
errors yield 0, out-of-range values are clamped to the int64 bounds. -/
def goAtoi (s : String) : Int :=
  match atoiParse s.toList with
  | none => 0
  | some v =>
    if v > 2 ^ 63 - 1 then 2 ^ 63 - 1
    else if v < -(2 ^ 63) then -(2 ^ 63)
    else v

/-- Outcome of the serveWait polling loop. -/
inductive WaitRes where
  | done (idx : Nat)
  | aborted
  | timedOut
deriving DecidableEq

/-- Embeds the serveWait polling loop (handler.go lines 644-657) over oracles
indexed by the poll iteration: the replication index read, the client-abort
flag and the timer-fired flag.  none means the loop is still polling after the
given number of iterations. -/
def waitLoop (idx : Nat → Nat) (aborted timedOut : Nat → Bool) (target : Nat) :
    Nat → Nat → Option WaitRes
  | _, 0 => none
  | k, fuel + 1 =>
    if target ≤ idx k then some (.done (idx k))
    else if aborted k then some .aborted
    else if timedOut k then some .timedOut
    else waitLoop idx aborted timedOut target (k + 1) fuel

/-- Embeds serveWait: parse both parameters ignoring errors, reject a zero
index with status 400 before any polling, otherwise poll.  The timer goroutine
that sets the timed-out flag is started only when the parsed timeout is
positive, so otherwise the loop observes a constantly false flag.  The second
component records whether the polling loop was entered. -/
def serveWaitE (rawIndex rawTimeout : String) (idx : Nat → Nat)
    (aborted timerFired : Nat → Bool) (fuel : Nat) : RW Nat × Bool :=
  let index := goParseUint64 rawIndex
  let timeout := goAtoi rawTimeout
  if index = 0 then ((RW.init : RW Nat).writeHeader 400, false)
  else
    let timedOut := if timeout > 0 then timerFired else fun _ => false
    let w : RW Nat := RW.init
    match waitLoop idx aborted timedOut index 0 fuel with
    | none => (w, true)
    | some (.done i) => (w.write i, true)
    | some .aborted => (w, true)
    | some .timedOut => (w.writeHeader 408, true)

/-! ### joinBroker and joinServer (handler.go lines 1342-1353 and 1427-1440) -/

/-- Embeds the joinBroker retry loop over an oracle giving each join attempt
outcome.  Returns the list of candidate URLs actually attempted, in order, and
true when some attempt succeeded (the function returns); false means the loop
was exhausted and log.Fatalf terminates the process. -/
def joinBrokerRun {U : Type u} (join : U → Bool) : List U → List U × Bool
  | [] => ([], false)
  | u :: rest =>
    if join u then ([u], true)
    else
      let r := joinBrokerRun join rest
      (u :: r.1, r.2)

/-- Embeds the joinServer retry loop: identical control structure, but each
attempt passes the own data URL together with the candidate. -/
def joinServerRun {U : Type u} (selfURL : U) (join : U → U → Bool) : List U → List U × Bool
  | [] => ([], false)
  | u :: rest =>
    if join selfURL u then ([u], true)
    else
      let r := joinServerRun selfURL join rest
      (u :: r.1, r.2)

/-! ### serveDump (handler.go lines 352-458)

Cells are not inspected by the handler apart from the time type assertion, modelled
by an asTime oracle in the environment (a failed assertion leaves the zero
time, modelled as none).  One response line is written per value tuple. -/

/-- One series row as returned by the engine for the dump select query. -/
structure DumpRow (C : Type) where
  name : String
  tags : List (String × String)
  columns : List String
  values : List (List C)
deriving DecidableEq

/-- The Point struct assembled by serveDump for one value tuple. -/
structure PointM (C : Type) where
  name : String
  tags : List (String × String)
  timestamp : Option Nat
  fields : List (String × C)
deriving DecidableEq

/-- The Batch struct wrapping a single point. -/
structure DumpBatch (C : Type) where
  database : String
  retentionPolicy : String
  points : List (PointM C)
deriving DecidableEq

/-- One line of the NDJSON dump stream: a marshalled batch, the literal
sentinel error line, or the JSON error body produced by httpError. -/
inductive DumpLine (C : Type) where
  | batch (b : DumpBatch C)
  | sentinel
  | errBody (msg : String)
deriving DecidableEq

/-- Collaborator outcomes for one serveDump request: the flattened result of
the show-measurements discovery query, then per measurement the parse and
execute outcomes of the synthesized select query, the time type assertion and
the json.Marshal outcome per batch. -/
structure DumpEnv (C : Type) where
  db : String
  measurements : Except String (List String)
  parse : String → Except String Unit
  exec : String → Except String (List (QResult (DumpRow C)))
  asTime : C → Option Nat
  encode : DumpBatch C → Except String Unit

/-- Go map assignment on the assoc-list model of the fields map. -/
def upsert {C : Type} (m : List (String × C)) (k : String) (v : C) : List (String × C) :=
  if m.any (fun kv => kv.fst == k) then
    m.map (fun kv => if kv.fst == k then (k, v) else kv)
  else m ++ [(k, v)]

/-- Embeds the inner cell loop of serveDump (handler.go lines 427-433): a cell
under the time column is pulled into the timestamp via the type assertion,
every other cell is stored in the fields map. -/
def applyCell {C : Type} (asTime : C → Option Nat) (pt : PointM C) (col : String) (cell : C) :
    PointM C :=
  if col == "time" then { pt with timestamp := asTime cell }
  else { pt with fields := upsert pt.fields col cell }

/-- Embeds one tuple pass: cells paired positionally with the series columns. -/
def tupleStep {C : Type} (asTime : C → Option Nat) (columns : List String) (pt : PointM C)
    (tuple : List C) : PointM C :=
  (columns.zip tuple).foldl (fun p cv => applyCell asTime p cv.1 cv.2) pt

/-- Embeds httpError (handler.go lines 862-874): content-type header, status
code (a no-op mid-stream), then the JSON error body. -/
def httpErrorE {C : Type} (w : RW (DumpLine C)) (msg : String) (code : Nat) : RW (DumpLine C) :=
  ((w.headerAdd "content-type" "application/json").writeHeader code).write (.errBody msg)

/-- Embeds the tuple loop of one series row (handler.go lines 426-454): the
point is mutated across tuples, each tuple yields one single-point batch that
is marshalled and written; a marshal failure writes the sentinel line and
aborts the whole dump (signalled by an error return carrying the writer). -/
def tuplesGo {C : Type} (env : DumpEnv C) (cols : List String) (pt : PointM C)
    (w : RW (DumpLine C)) : List (List C) → Except (RW (DumpLine C)) (RW (DumpLine C))
  | [] => .ok w
  | t :: ts =>
    let pt2 := tupleStep env.asTime cols pt t
    let batch : DumpBatch C := ⟨env.db, "default", [pt2]⟩
    match env.encode batch with
    | .error _ => .error (w.write .sentinel)
    | .ok _ => tuplesGo env cols pt2 (w.write (.batch batch)) ts

/-- Embeds the series loop (handler.go lines 420-455): one fresh point per
row, named and tagged from the row. -/
def rowsGo {C : Type} (env : DumpEnv C) (w : RW (DumpLine C)) :
    List (DumpRow C) → Except (RW (DumpLine C)) (RW (DumpLine C))
  | [] => .ok w
  | row :: rest =>
    match tuplesGo env row.columns ⟨row.name, row.tags, none, []⟩ w row.values with
    | .error w2 => .error w2
    | .ok w2 => rowsGo env w2 rest

/-- Embeds the result loop (handler.go line 419): results are drained from the
channel and only their series field is consumed. -/
def resultsGo {C : Type} (env : DumpEnv C) (w : RW (DumpLine C)) :
    List (QResult (DumpRow C)) → Except (RW (DumpLine C)) (RW (DumpLine C))
  | [] => .ok w
  | r :: rest =>
    match rowsGo env w r.series with
    | .error w2 => .error w2
    | .ok w2 => resultsGo env w2 rest

/-- Embeds the per-measurement loop of serveDump (handler.go lines 404-457): a
parse failure reports through httpError and stops, an execute failure writes
the sentinel line and stops, an encode failure deep in the row loop already
wrote the sentinel and stops; otherwise the next measurement is processed. -/
def dumpMeasGo {C : Type} (env : DumpEnv C) (w : RW (DumpLine C)) :
    List String → RW (DumpLine C)
  | [] => w
  | m :: rest =>
    match env.parse m with
    | .error e => httpErrorE w ("error with dump: " ++ e) 500
    | .ok _ =>
      match env.exec m with
      | .error _ => w.write .sentinel
      | .ok results =>
        match resultsGo env w results with
        | .error w2 => w2
        | .ok w2 => dumpMeasGo env w2 rest

/-- Embeds serveDump: a discovery failure reports through httpError before any
output, otherwise the measurements are processed in order. -/
def serveDumpE {C : Type} (env : DumpEnv C) : RW (DumpLine C) :=
  match env.measurements with
  | .error e => httpErrorE RW.init ("error with dump: " ++ e) 500
  | .ok ms => dumpMeasGo env RW.init ms

/-! ### Specification-side descriptions and concrete inputs -/

/-- Concatenation of a list of series lists, as the spec phrases the merge
result. -/
def concatAll {α : Type u} : List (List α) → List α
  | [] => []
  | x :: xs => x ++ concatAll xs

/-- Distinct values of a list in first-seen order, as the spec phrases the
envelope entry order. -/
def firstSeen : List Nat → List Nat
  | [] => []
  | a :: l => a :: firstSeen (l.filter (fun x => !(x == a)))
termination_by l => l.length
decreasing_by
  simp only [List.length_cons]
  exact Nat.lt_succ_of_le (List.length_filter_le _ _)

/-- Decides the hypothesis of claim C2: all occurrences of each statement id
are consecutive, i.e. once the leading run of an id ends that id never
reappears. -/
def groupedB : List Nat → Bool
  | [] => true
  | a :: l =>
    !((l.dropWhile (fun x => x == a)).contains a)
      && groupedB (l.dropWhile (fun x => x == a))
termination_by l => l.length
decreasing_by
  simp only [List.length_cons]
  exact Nat.lt_succ_of_le ((List.dropWhile_sublist _).length_le)

/-- Run-level reformulation of the buffered merge: the open (last) accumulator
entry absorbs the series of every consecutive result sharing its id. -/
def mergeOpen {α : Type u} (cur : QResult α) : List (QResult α) → List (QResult α)
  | [] => [cur]
  | r :: rs =>
    if cur.statementID = r.statementID then
      mergeOpen { cur with series := cur.series ++ r.series } rs
    else cur :: mergeOpen r rs

/-- Front recursion equivalent of the buffered merge fold. -/
def runMerge {α : Type u} : List (QResult α) → List (QResult α)
  | [] => []
  | r :: rs => mergeOpen r rs

/-- Claim-side description of buffered output (claim C2 wording): one pair per
distinct statement id in first-seen order, carrying the concatenation of the
series of every input result with that id, in input order. -/
def specPairs {α : Type u} (rs : List (QResult α)) : List (Nat × List α) :=
  (firstSeen (rs.map QResult.statementID)).map
    (fun i => (i, concatAll ((rs.filter (fun r => r.statementID == i)).map QResult.series)))

/-- Concrete measurement-not-found error for the C1 counterexample. -/
def mnfErr : GoErr := ⟨false, "measurement not found".toList⟩

/-- Concrete first (and only) channel result for the C1 counterexample. -/
def mnfResult : QResult Nat := ⟨0, [], some mnfErr⟩

/-- Concrete series row for the C5 counterexample. -/
def dumpRowCex : DumpRow Nat := ⟨"m1", [], ["time", "v"], [[0, 7]]⟩

/-- Concrete dump environment for the C5 counterexample: the first measurement
dumps one batch line successfully, then the parse of the second measurement
fails mid-stream. -/
def dumpEnvCex : DumpEnv Nat where
  db := "db0"
  measurements := .ok ["m1", "m2"]
  parse := fun m => if m == "m1" then .ok () else .error "boom"
  exec := fun m => if m == "m1" then .ok [⟨0, [dumpRowCex], none⟩] else .error "nope"
  asTime := fun c => if c == 0 then some 0 else none
  encode := fun _ => .ok ()

/-- The batch line flushed for the first measurement of the C5 counterexample. -/
def dumpBatchCex : DumpBatch Nat := ⟨"db0", "default", [⟨"m1", [], some 0, [("v", 7)]⟩]⟩

/-- Write environment whose body decoding stops immediately with EOF. -/
def wEnvEOF : WriteEnv := ⟨.error "EOF", fun _ => true, false, none, .ok (), .ok 1⟩

/-- Write environment whose decoded batch has an empty database field. -/
def wEnvEmptyDB : WriteEnv := ⟨.ok ⟨"", ""⟩, fun _ => true, false, none, .ok (), .ok 1⟩

/-- Write environment naming a database that does not exist. -/
def wEnvNoDB : WriteEnv := ⟨.ok ⟨"db1", ""⟩, fun _ => false, false, none, .ok (), .ok 1⟩

/-- Write environment requiring authentication with no principal present. -/
def wEnvNoUser : WriteEnv := ⟨.ok ⟨"db1", ""⟩, fun _ => true, true, none, .ok (), .ok 1⟩

/-- Fully successful write environment for the C4 evaluation: the replicated
write path returns index 42. -/
def wEnvSuccess : WriteEnv := ⟨.ok ⟨"db0", ""⟩, fun _ => true, false, none, .ok (), .ok 42⟩

/-! ### Lemmas about the response writer and the serveQuery loop -/

theorem RW.writeHeader_status_some {β : Type u} (w : RW β) (code c : Nat)
    (h : w.status = some c) : (w.writeHeader code).status = some c := by
  simp [RW.writeHeader, h]

theorem RW.write_status_some {β : Type u} (w : RW β) (b : β) (c : Nat)
    (h : w.status = some c) : (w.write b).status = some c := by
  simp [RW.write, RW.writeHeader, h]

theorem queryStep_status_stable {α : Type u} (chunked : Bool) (s : QState α)
    (r : Option (QResult α)) (c : Nat) (h1 : s.statusWritten = true) (h2 : s.w.status = some c) :
    (queryStep chunked s r).statusWritten = true ∧ (queryStep chunked s r).w.status = some c := by
  unfold queryStep
  rw [h1]
  simp only [if_true]
  cases r with
  | none => exact ⟨h1, h2⟩
  | some rr =>
    cases chunked with
    | false => exact ⟨h1, h2⟩
    | true => exact ⟨h1, RW.write_status_some _ _ _ h2⟩

theorem foldl_queryStep_status {α : Type u} (chunked : Bool) (c : Nat) :
    ∀ (results : List (Option (QResult α))) (s : QState α),
      s.statusWritten = true → s.w.status = some c →
      ((results.foldl (queryStep chunked) s).statusWritten = true ∧
        (results.foldl (queryStep chunked) s).w.status = some c) := by
  intro results
  induction results with
  | nil => intro s h1 h2; exact ⟨h1, h2⟩
  | cons r t ih =>
    intro s h1 h2
    have hs := queryStep_status_stable chunked s r c h1 h2
    exact ih (queryStep chunked s r) hs.1 hs.2

theorem queryStep_first {α : Type u} (chunked : Bool) (s : QState α) (r : Option (QResult α))
    (h1 : s.statusWritten = false) (h2 : s.w.status = none) :
    (queryStep chunked s r).statusWritten = true ∧
      (queryStep chunked s r).w.status = some (claimStatus r) := by
  unfold queryStep
  rw [h1]
  simp only [Bool.false_eq_true, if_false]
  have hw : ∀ code : Nat, (s.w.writeHeader code).status = some code := by
    intro code; simp [RW.writeHeader, h2]
  cases r with
  | none => exact ⟨rfl, hw 200⟩
  | some rr =>
    cases hc : chunked with
    | false =>
      refine ⟨rfl, ?_⟩
      cases hrr : rr.err <;> simp [claimStatus, hrr, hw]
    | true =>
      refine ⟨rfl, ?_⟩
      cases hrr : rr.err <;>
        simp only [claimStatus, hrr] <;>
        exact RW.write_status_some _ _ _ (by simp [hrr, hw])

/-- Claim C1, counterexample: with a single measurement-not-found first result
the handler does write the success status, but the response body is not empty:
the buffered envelope contains the error-bearing result itself (handler.go
lines 280-293 append it and line 293 writes it out). -/
theorem serveQuery_notfound_body_not_empty :
    (serveQueryE (Except.ok [some mnfResult]) false).status = some 200 ∧
    (serveQueryE (Except.ok [some mnfResult]) false).body = [[mnfResult]] ∧
    [mnfResult] ≠ ([] : List (QResult Nat)) := by
  refine ⟨by decide, by decide, by decide⟩

/-- Claim C1 (amended): when the engine call succeeds, the HTTP status code is
decided solely by the first result received from the channel, first match
wins: no error (including a nil first result) gives success, an authorization
error gives unauthorized, a measurement-, tag- or field-not-found error gives
success (the error result itself is still passed through to the body), any
other error gives internal error; errors of later results never change the
status, in either chunked or buffered mode. -/
theorem serveQuery_status_first_result {α : Type u} (chunked : Bool)
    (r0 : Option (QResult α)) (rs : List (Option (QResult α))) :
    (serveQueryE (Except.ok (r0 :: rs)) chunked).status = some (claimStatus r0) := by
  simp only [serveQueryE, List.foldl_cons]
  have hf := queryStep_first chunked
    ⟨RW.init.headerAdd "content-type" "application/json", false, []⟩ r0 rfl rfl
  have hfold := foldl_queryStep_status chunked (claimStatus r0) rs _ hf.1 hf.2
  cases chunked with
  | true => simpa using hfold.2
  | false => simpa using RW.write_status_some _ _ _ hfold.2

/-! ### Lemmas about the buffered merge -/

theorem buffStep_concat {α : Type u} (done : List (QResult α)) (cur r : QResult α) :
    buffStep (done ++ [cur]) r =
      if cur.statementID = r.statementID then
        done ++ [{ cur with series := cur.series ++ r.series }]
      else (done ++ [cur]) ++ [r] := by
  simp [buffStep, List.getLast?_concat, List.dropLast_concat]

theorem foldl_buffStep_concat {α : Type u} :
    ∀ (rs done : List (QResult α)) (cur : QResult α),
      List.foldl buffStep (done ++ [cur]) rs = done ++ mergeOpen cur rs := by
  intro rs
  induction rs with
  | nil => intro done cur; simp [mergeOpen]
  | cons r rs ih =>
    intro done cur
    rw [List.foldl_cons, buffStep_concat]
    by_cases h : cur.statementID = r.statementID
    · rw [if_pos h, ih done _]
      simp [mergeOpen, h]
    · rw [if_neg h, ih (done ++ [cur]) r]
      simp [mergeOpen, h]

theorem mergeResults_eq_runMerge {α : Type u} (rs : List (QResult α)) :
    mergeResults rs = runMerge rs := by
  cases rs with
  | nil => rfl
  | cons r rs =>
    have h := foldl_buffStep_concat rs [] r
    simp only [List.nil_append] at h
    have h0 : buffStep ([] : List (QResult α)) r = [r] := by simp [buffStep]
    simp [mergeResults, runMerge, List.foldl_cons, h0, h]

theorem mergeOpen_eq_run {α : Type u} :
    ∀ (rs : List (QResult α)) (cur : QResult α),
      mergeOpen cur rs =
        ⟨cur.statementID,
          cur.series ++
            concatAll ((rs.takeWhile (fun x => x.statementID == cur.statementID)).map
              QResult.series),
          cur.err⟩
          :: runMerge (rs.dropWhile (fun x => x.statementID == cur.statementID)) := by
  intro rs
  induction rs with
  | nil =>
    intro cur
    simp only [mergeOpen, List.takeWhile_nil, List.map_nil, List.dropWhile_nil, runMerge]
    cases cur
    simp [concatAll]
  | cons r rs ih =>
    intro cur
    by_cases h : cur.statementID = r.statementID
    · have hb : (r.statementID == cur.statementID) = true := by simp [h]
      simp only [mergeOpen, if_pos h, ih, List.takeWhile_cons, List.dropWhile_cons, hb,
        if_true, List.map_cons, concatAll, List.append_assoc]
    · have hb : (r.statementID == cur.statementID) = false := by
        simp [Ne.symm h]
      simp only [mergeOpen, if_neg h, List.takeWhile_cons, List.dropWhile_cons, hb,
        Bool.false_eq_true, if_false, List.map_nil, concatAll, List.append_nil, runMerge]

/-! ### Lemmas about firstSeen -/

theorem firstSeen_subset : ∀ (l : List Nat) (x : Nat), x ∈ firstSeen l → x ∈ l := by
  intro l
  induction l using firstSeen.induct with
  | case1 => intro x hx; simp [firstSeen] at hx
  | case2 a l ih =>
    intro x hx
    rw [firstSeen] at hx
    rcases List.mem_cons.mp hx with h | h
    · exact h ▸ List.mem_cons_self a l
    · exact List.mem_cons_of_mem a (List.mem_filter.mp (ih x h)).1

theorem mem_firstSeen : ∀ (l : List Nat) (x : Nat), x ∈ firstSeen l ↔ x ∈ l := by
  intro l
  induction l using firstSeen.induct with
  | case1 => intro x; simp [firstSeen]
  | case2 a l ih =>
    intro x
    constructor
    · exact firstSeen_subset _ x
    · intro hx
      rw [firstSeen]
      rcases List.mem_cons.mp hx with h | h
      · exact h ▸ List.mem_cons_self _ _
      · by_cases hxa : x = a
        · exact hxa ▸ List.mem_cons_self _ _
        · refine List.mem_cons_of_mem _ ((ih x).mpr ?_)
          exact List.mem_filter.mpr ⟨h, by simp [hxa]⟩

theorem firstSeen_nodup : ∀ (l : List Nat), (firstSeen l).Nodup := by
  intro l
  induction l using firstSeen.induct with
  | case1 => simp [firstSeen]
  | case2 a l ih =>
    rw [firstSeen]
    refine List.nodup_cons.mpr ⟨?_, ih⟩
    intro ha
    have := (List.mem_filter.mp (firstSeen_subset _ a ha)).2
    simp at this

theorem runMerge_grouped {α : Type u} :
    ∀ (n : Nat) (rs : List (QResult α)), rs.length ≤ n →
      groupedB (rs.map QResult.statementID) = true →
      (runMerge rs).map (fun r => (r.statementID, r.series)) = specPairs rs := by
  intro n
  induction n with
  | zero =>
    intro rs hlen hg
    have hnil : rs = [] := List.eq_nil_of_length_eq_zero (Nat.le_zero.mp hlen)
    subst hnil
    simp [runMerge, specPairs, firstSeen]
  | succ n ih =>
    intro rs hlen hg
    cases rs with
    | nil => simp [runMerge, specPairs, firstSeen]
    | cons r rs2 =>
      set a := r.statementID with ha
      set run := rs2.takeWhile (fun x => x.statementID == a) with hrunDef
      set drop := rs2.dropWhile (fun x => x.statementID == a) with hdropDef
      -- unpack the groupedness hypothesis
      simp only [List.map_cons] at hg
      rw [groupedB] at hg
      rw [Bool.and_eq_true] at hg
      rcases hg with ⟨hg1, hg2⟩
      have hdw : (rs2.map QResult.statementID).dropWhile (fun x => x == a)
          = drop.map QResult.statementID := by
        simp [List.dropWhile_map, Function.comp_def, hdropDef]
      have htw : (rs2.map QResult.statementID).takeWhile (fun x => x == a)
          = run.map QResult.statementID := by
        simp [List.takeWhile_map, Function.comp_def, hrunDef]
      rw [hdw] at hg1 hg2
      have hnotin : ¬ a ∈ drop.map QResult.statementID := by
        simpa using hg1
      have hrun : ∀ x ∈ run, x.statementID = a := by
        intro x hx
        have := List.mem_takeWhile_imp hx
        simpa using this
      have hdropne : ∀ x ∈ drop, x.statementID ≠ a := by
        intro x hx h
        exact hnotin (List.mem_map.mpr ⟨x, hx, h⟩)
      have hsplit : rs2 = run ++ drop :=
        (List.takeWhile_append_dropWhile _ _).symm
      -- left side: one run is absorbed into the head entry
      have hL : (runMerge (r :: rs2)).map (fun x => (x.statementID, x.series))
          = (a, r.series ++ concatAll (run.map QResult.series))
            :: (runMerge drop).map (fun x => (x.statementID, x.series)) := by
        rw [runMerge, mergeOpen_eq_run]
        simp [hrunDef, hdropDef]
      -- right side: the first-seen id list starts with a and continues in drop
      have hfilterIds : (rs2.map QResult.statementID).filter (fun x => !(x == a))
          = drop.map QResult.statementID := by
        conv_lhs => rw [hsplit]
        rw [List.map_append, List.filter_append]
        have h1 : (run.map QResult.statementID).filter (fun x => !(x == a)) = [] := by
          refine List.filter_eq_nil_iff.mpr ?_
          intro i hi
          rcases List.mem_map.mp hi with ⟨x, hx, hxi⟩
          simp [← hxi, hrun x hx]
        have h2 : (drop.map QResult.statementID).filter (fun x => !(x == a))
            = drop.map QResult.statementID := by
          refine List.filter_eq_self.mpr ?_
          intro i hi
          rcases List.mem_map.mp hi with ⟨x, hx, hxi⟩
          simp [← hxi, hdropne x hx]
        rw [h1, h2, List.nil_append]
      have hfsCons : firstSeen ((r :: rs2).map QResult.statementID)
          = a :: firstSeen (drop.map QResult.statementID) := by
        simp only [List.map_cons]
        rw [firstSeen, hfilterIds]
      -- head entry of the claim-side description
      have hheadF : ((r :: rs2).filter (fun x => x.statementID == a)).map QResult.series
          = r.series :: run.map QResult.series := by
        rw [List.filter_cons]
        have hra : (r.statementID == a) = true := by simp [ha]
        rw [if_pos (by simp [hra])]
        conv_lhs => rw [hsplit]
        rw [List.filter_append]
        have h1 : run.filter (fun x => x.statementID == a) = run :=
          List.filter_eq_self.mpr (fun x hx => by simp [hrun x hx])
        have h2 : drop.filter (fun x => x.statementID == a) = [] :=
          List.filter_eq_nil_iff.mpr (fun x hx => by simp [hdropne x hx])
        rw [h1, h2, List.append_nil, List.map_cons]
      -- tail entries of the claim-side description only see drop
      have htail : (firstSeen (drop.map QResult.statementID)).map
            (fun i => (i, concatAll (((r :: rs2).filter
              (fun x => x.statementID == i)).map QResult.series)))
          = specPairs drop := by
        rw [specPairs]
        refine List.map_congr_left ?_
        intro i hi
        have hmem : i ∈ drop.map QResult.statementID := firstSeen_subset _ i hi
        have hia : i ≠ a := fun h => hnotin (h ▸ hmem)
        have hstep : (r :: rs2).filter (fun x => x.statementID == i)
            = drop.filter (fun x => x.statementID == i) := by
          rw [List.filter_cons]
          rw [if_neg (by simp [ha.symm]; exact fun h => hia h.symm)]
          conv_lhs => rw [hsplit]
          rw [List.filter_append]
          have h1 : run.filter (fun x => x.statementID == i) = [] :=
            List.filter_eq_nil_iff.mpr (fun x hx => by
              simp [hrun x hx]
              exact fun h => hia h.symm)
          rw [h1, List.nil_append]
        rw [hstep]
      -- lengths for the induction hypothesis
      have hlen2 : drop.length ≤ n := by
        have h1 : drop.length ≤ rs2.length := (List.dropWhile_sublist _).length_le
        have h2 : rs2.length ≤ n := by
          simpa [Nat.succ_le_succ_iff] using hlen
        exact le_trans h1 h2
      have hIH := ih drop hlen2 hg2
      rw [hL, hIH]
      conv_rhs => rw [specPairs]
      rw [hfsCons, List.map_cons, hheadF, htail, concatAll]

theorem RW.write_body {β : Type u} (w : RW β) (b : β) : (w.write b).body = w.body ++ [b] := by
  cases h : w.status <;> simp [RW.write, RW.writeHeader, h]

theorem foldl_queryStep_res {α : Type u} :
    ∀ (results : List (Option (QResult α))) (s : QState α),
      ((results.foldl (queryStep false) s).res
        = List.foldl buffStep s.res (results.filterMap id)) ∧
      ((results.foldl (queryStep false) s).w.body = s.w.body) := by
  intro results
  induction results with
  | nil => intro s; exact ⟨rfl, rfl⟩
  | cons r t ih =>
    intro s
    have hres : (queryStep false s r).res
        = (match r with | none => s.res | some rr => buffStep s.res rr) := by
      cases r <;> cases hsw : s.statusWritten <;> simp [queryStep, hsw]
    have hbody : (queryStep false s r).w.body = s.w.body := by
      cases r <;> cases hsw : s.statusWritten <;>
        simp [queryStep, hsw, RW.writeHeader] <;>
        cases hst : s.w.status <;> simp
    have iht := ih (queryStep false s r)
    constructor
    · rw [List.foldl_cons, iht.1, hres]
      cases r <;> simp [List.filterMap_cons]
    · rw [List.foldl_cons, iht.2, hbody]

/-- Claim C2: for a sequence of non-nil statement results in which all results
sharing a statement id are consecutive, the buffered (non-chunked) output is a
single envelope whose result list has exactly one entry per distinct statement
id, in first-seen order, and each entry carries the concatenation, in input
order, of the series of every input result with that id. -/
theorem serveQuery_buffered_merge {α : Type u} (rs : List (QResult α))
    (hg : groupedB (rs.map QResult.statementID) = true) :
    (serveQueryE (Except.ok (rs.map some)) false).body = [mergeResults rs] ∧
    (mergeResults rs).map (fun r => (r.statementID, r.series)) = specPairs rs ∧
    (firstSeen (rs.map QResult.statementID)).Nodup ∧
    (∀ i, i ∈ firstSeen (rs.map QResult.statementID) ↔ i ∈ rs.map QResult.statementID) := by
  refine ⟨?_, ?_, firstSeen_nodup _, fun i => mem_firstSeen _ i⟩
  · simp only [serveQueryE]
    have h := foldl_queryStep_res (rs.map some)
      ⟨RW.init.headerAdd "content-type" "application/json", false, []⟩
    have hfm : (rs.map some).filterMap id = rs := by
      simp [List.filterMap_map]
    simp only [Bool.false_eq_true, if_false]
    rw [RW.write_body, h.2, h.1, hfm]
    rfl
  · rw [mergeResults_eq_runMerge]
    exact runMerge_grouped rs.length rs le_rfl hg

/-- Witness for claim C2 at a concrete grouped input with two statement ids. -/
theorem serveQuery_buffered_merge_witness :
    (serveQueryE (Except.ok (([⟨1, [10], none⟩, ⟨1, [11], none⟩, ⟨2, [12], none⟩] :
        List (QResult Nat)).map some)) false).body
      = [mergeResults [⟨1, [10], none⟩, ⟨1, [11], none⟩, ⟨2, [12], none⟩]] ∧
    (mergeResults ([⟨1, [10], none⟩, ⟨1, [11], none⟩, ⟨2, [12], none⟩] :
        List (QResult Nat))).map (fun r => (r.statementID, r.series))
      = specPairs [⟨1, [10], none⟩, ⟨1, [11], none⟩, ⟨2, [12], none⟩] ∧
    (firstSeen (([⟨1, [10], none⟩, ⟨1, [11], none⟩, ⟨2, [12], none⟩] :
        List (QResult Nat)).map QResult.statementID)).Nodup ∧
    (∀ i, i ∈ firstSeen (([⟨1, [10], none⟩, ⟨1, [11], none⟩, ⟨2, [12], none⟩] :
        List (QResult Nat)).map QResult.statementID)
      ↔ i ∈ ([⟨1, [10], none⟩, ⟨1, [11], none⟩, ⟨2, [12], none⟩] :
        List (QResult Nat)).map QResult.statementID) :=
  serveQuery_buffered_merge _ (by simp [groupedB, List.dropWhile])

/-! ### Lemmas about the mapper session loop -/

theorem mapperLoop_step_raw {V : Type u} {next : Nat → Except String (Option V)}
    {isEmpty : Nat → Bool} {k : Nat} {v : Option V} (cs : Int) (fuel : Nat)
    (h1 : next k = Except.ok v) (h2 : isEmpty (k + 1) = false) :
    mapperLoop next isEmpty true cs k (fuel + 1)
      = (mapperLoop next isEmpty true cs (k + 1) fuel).map (fun l => Frame.interval v :: l) := by
  simp [mapperLoop, h1, h2]

theorem mapperLoop_step_agg {V : Type u} {next : Nat → Except String (Option V)}
    {isEmpty : Nat → Bool} {k : Nat} {v : Option V} (cs : Int) (fuel : Nat)
    (h1 : next k = Except.ok v) (h2 : isEmpty (k + 1) = false) (h3 : ¬(cs - 1 = 0)) :
    mapperLoop next isEmpty false cs k (fuel + 1)
      = (mapperLoop next isEmpty false (cs - 1) (k + 1) fuel).map
          (fun l => Frame.interval v :: l) := by
  simp [mapperLoop, h1, h2, h3]

theorem mapperLoop_not_done {V : Type u} (next : Nat → Except String (Option V))
    (isEmpty : Nat → Bool) (f : Nat → Option V) (hnext : ∀ j, next j = Except.ok (f j)) :
    ∀ (K k : Nat) (cs : Int),
      (∀ j, j < K → isEmpty (k + j + 1) = false) →
      mapperLoop next isEmpty true cs k K = none := by
  intro K
  induction K with
  | zero => intro k cs _; rfl
  | succ K ihK =>
    intro k cs h
    have h0 : isEmpty (k + 1) = false := by simpa using h 0 (Nat.succ_pos K)
    have hrec := ihK (k + 1) cs (fun j hj => by
      have := h (j + 1) (Nat.succ_lt_succ hj)
      have harith : k + (j + 1) + 1 = k + 1 + j + 1 := by omega
      rwa [harith] at this)
    simp [mapperLoop, hnext k, h0, hrec]

theorem mapperLoop_raw_term {V : Type u} (next : Nat → Except String (Option V))
    (isEmpty : Nat → Bool) (f : Nat → Option V) (hnext : ∀ j, next j = Except.ok (f j)) :
    ∀ (K k : Nat) (cs : Int),
      (∀ j, j < K → isEmpty (k + j + 1) = false) →
      isEmpty (k + K + 1) = true →
      ∃ vs : List (Option V),
        mapperLoop next isEmpty true cs k (K + 1)
          = some (vs.map Frame.interval ++ [Frame.completed]) ∧
        vs.length = K + (if (f (k + K)).isNone then 0 else 1) := by
  intro K
  induction K with
  | zero =>
    intro k cs _ hK
    simp only [Nat.add_zero] at hK
    cases hv : f k with
    | none =>
      refine ⟨[], ?_, by simp [hv]⟩
      simp [mapperLoop, hnext k, hv, hK]
    | some x =>
      refine ⟨[some x], ?_, by simp [hv]⟩
      simp [mapperLoop, hnext k, hv, hK]
  | succ K ihK =>
    intro k cs hlt hK
    have h0 : isEmpty (k + 1) = false := by simpa using hlt 0 (Nat.succ_pos K)
    have hK2 : isEmpty (k + 1 + K + 1) = true := by
      have harith : k + (K + 1) + 1 = k + 1 + K + 1 := by omega
      rwa [harith] at hK
    rcases ihK (k + 1) cs (fun j hj => by
        have := hlt (j + 1) (Nat.succ_lt_succ hj)
        have harith : k + (j + 1) + 1 = k + 1 + j + 1 := by omega
        rwa [harith] at this) hK2 with ⟨vs, hvs, hlen⟩
    refine ⟨f k :: vs, ?_, ?_⟩
    · rw [mapperLoop_step_raw cs (K + 1) (hnext k) h0, hvs]
      simp
    · have harith : k + (K + 1) = k + 1 + K := by omega
      rw [harith]
      cases hni : (f (k + 1 + K)).isNone <;> simp [hni] at hlen ⊢ <;> omega

theorem mapperLoop_agg_term {V : Type u} (next : Nat → Except String (Option V))
    (isEmpty : Nat → Bool) (f : Nat → Option V) (hnext : ∀ j, next j = Except.ok (f j)) :
    ∀ (K k : Nat) (n : Int), 0 < n →
      (∀ j, j < K → isEmpty (k + j + 1) = false) →
      isEmpty (k + K + 1) = true →
      ∃ vs : List (Option V),
        mapperLoop next isEmpty false n k (K + 1)
          = some (vs.map Frame.interval ++ [Frame.completed]) ∧
        vs.length = min (K + (if (f (k + K)).isNone then 0 else 1)) n.toNat := by
  intro K
  induction K with
  | zero =>
    intro k n hn _ hK
    simp only [Nat.add_zero] at hK
    cases hv : f k with
    | none =>
      refine ⟨[], ?_, by simp [hv]⟩
      simp [mapperLoop, hnext k, hv, hK]
    | some x =>
      by_cases hone : n - 1 = 0
      · refine ⟨[some x], ?_, ?_⟩
        · simp [mapperLoop, hnext k, hv, hK, hone]
        · have : n = 1 := by omega
          subst this
          simp [hv]
      · refine ⟨[some x], ?_, ?_⟩
        · simp [mapperLoop, hnext k, hv, hK, hone]
        · have h2 : (2 : Int) ≤ n := by omega
          have : 2 ≤ n.toNat := by omega
          simp [hv]
          omega
  | succ K ihK =>
    intro k n hn hlt hK
    have h0 : isEmpty (k + 1) = false := by simpa using hlt 0 (Nat.succ_pos K)
    have hK2 : isEmpty (k + 1 + K + 1) = true := by
      have harith : k + (K + 1) + 1 = k + 1 + K + 1 := by omega
      rwa [harith] at hK
    have hshift : ∀ j, j < K → isEmpty (k + 1 + j + 1) = false := fun j hj => by
      have := hlt (j + 1) (Nat.succ_lt_succ hj)
      have harith : k + (j + 1) + 1 = k + 1 + j + 1 := by omega
      rwa [harith] at this
    by_cases hone : n - 1 = 0
    · refine ⟨[f k], ?_, ?_⟩
      · simp [mapperLoop, hnext k, h0, hone]
      · have : n = 1 := by omega
        have hto : n.toNat = 1 := by omega
        rw [hto]
        cases hni : (f (k + (K + 1))).isNone <;> simp [hni]
    · have hn2 : (0 : Int) < n - 1 := by omega
      rcases ihK (k + 1) (n - 1) hn2 hshift hK2 with ⟨vs, hvs, hlen⟩
      refine ⟨f k :: vs, ?_, ?_⟩
      · rw [mapperLoop_step_agg n (K + 1) (hnext k) h0 hone, hvs]
        simp
      · have harith : k + (K + 1) = k + 1 + K := by omega
        rw [harith]
        have hts : (n - 1).toNat = n.toNat - 1 := by omega
        have ht1 : 1 ≤ n.toNat := by omega
        rw [hts] at hlen
        cases hni : (f (k + 1 + K)).isNone <;> simp [hni] at hlen ⊢ <;> omega

theorem mapperLoop_raw_cs_irrelevant {V : Type u} (next : Nat → Except String (Option V))
    (isEmpty : Nat → Bool) :
    ∀ (fuel k : Nat) (cs cs2 : Int),
      mapperLoop next isEmpty true cs k fuel = mapperLoop next isEmpty true cs2 k fuel := by
  intro fuel
  induction fuel with
  | zero => intro k cs cs2; rfl
  | succ fuel ih =>
    intro k cs cs2
    simp only [mapperLoop]
    cases next k with
    | error e => rfl
    | ok v =>
      by_cases h1 : (v.isNone && isEmpty (k + 1)) = true
      · simp [h1]
      · simp only [h1, Bool.false_eq_true, if_false, if_true]
        by_cases h2 : isEmpty (k + 1) = true
        · simp [h2]
        · simp [h2, ih (k + 1) cs cs2]

/-- Claim C3: in a mapper session whose setup steps succeed and whose
NextInterval calls all succeed, with exhaustion first observed after K + 1
interval pulls: the raw-mode loop (no call expression) has not stopped after K
iterations whatever the chunk size (in particular a nil interval value alone
never stops it), stops exactly at the exhaustion point emitting one interval
frame per pull before the terminal completed frame, and the aggregate-mode
loop with positive chunk size n emits exactly min of the raw frame count and n
interval frames before its terminal completed frame.  The first conjunct
reduces the full handler to the loop when decoding, StartLocalMapper, Open,
CallExpr and Begin all succeed. -/
theorem runMapper_session_termination {V : Type u} (next : Nat → Except String (Option V))
    (isEmpty : Nat → Bool) (f : Nat → Option V) (K : Nat) (cs n : Int)
    (hnext : ∀ j, next j = Except.ok (f j))
    (hlt : ∀ j, j < K → isEmpty (j + 1) = false)
    (hK : isEmpty (K + 1) = true) (hn : 0 < n) :
    (∀ (env : MapperEnv V) (req : MapperReq) (c : Option Unit) (fuel : Nat),
      env.decode = .ok req → env.startLocalMapper = .ok () → env.openMapper = .ok () →
      env.callExpr = .ok c → env.beginMapper = .ok () →
      serveRunMapperE env fuel
        = mapperLoop env.next env.isEmpty c.isNone req.chunkSize 0 fuel) ∧
    mapperLoop next isEmpty true cs 0 K = none ∧
    (∃ vs : List (Option V),
      mapperLoop next isEmpty true cs 0 (K + 1)
        = some (vs.map Frame.interval ++ [Frame.completed]) ∧
      vs.length = K + (if (f K).isNone then 0 else 1)) ∧
    (∃ vs : List (Option V),
      mapperLoop next isEmpty false n 0 (K + 1)
        = some (vs.map Frame.interval ++ [Frame.completed]) ∧
      vs.length = min (K + (if (f K).isNone then 0 else 1)) n.toNat) := by
  have hlt0 : ∀ j, j < K → isEmpty (0 + j + 1) = false := by
    intro j hj; simpa using hlt j hj
  have hK0 : isEmpty (0 + K + 1) = true := by simpa using hK
  refine ⟨?_, ?_, ?_, ?_⟩
  · intro env req c fuel h1 h2 h3 h4 h5
    simp [serveRunMapperE, h1, h2, h3, h4, h5]
  · exact mapperLoop_not_done next isEmpty f hnext K 0 cs hlt0
  · have h := mapperLoop_raw_term next isEmpty f hnext K 0 cs hlt0 hK0
    rw [Nat.zero_add] at h
    exact h
  · have h := mapperLoop_agg_term next isEmpty f hnext K 0 n hn hlt0 hK0
    rw [Nat.zero_add] at h
    exact h

/-- Witness for claim C3: a concrete mapper yielding interval j at pull j,
exhausted after the third pull, with chunk sizes 5 (raw, ignored) and 2
(aggregate). -/
theorem runMapper_session_termination_witness :
    mapperLoop (fun j => Except.ok (some j)) (fun k => decide (3 ≤ k)) true 5 0 2 = none ∧
    (∃ vs : List (Option Nat),
      mapperLoop (fun j => Except.ok (some j)) (fun k => decide (3 ≤ k)) true 5 0 (2 + 1)
        = some (vs.map Frame.interval ++ [Frame.completed]) ∧
      vs.length = 2 + (if ((fun j : Nat => some j) 2).isNone then 0 else 1)) ∧
    (∃ vs : List (Option Nat),
      mapperLoop (fun j => Except.ok (some j)) (fun k => decide (3 ≤ k)) false 2 0 (2 + 1)
        = some (vs.map Frame.interval ++ [Frame.completed]) ∧
      vs.length = min (2 + (if ((fun j : Nat => some j) 2).isNone then 0 else 1))
        (Int.toNat 2)) :=
  (runMapper_session_termination (fun j => Except.ok (some j)) (fun k => decide (3 ≤ k))
    (fun j => some j) 2 5 2 (fun _ => rfl) (by decide) (by decide) (by decide)).2

/-! ### Claims about serveWrite -/

/-- Claim C4, evaluation at a successful write: the handler calls WriteHeader
with the success status and only afterwards adds the X-InfluxDB-Index header
to the header map (handler.go lines 538-539), so the transmitted header
snapshot does not contain the index header even though the map does: the
response does not carry the replication index. -/
theorem serveWrite_index_header_not_sent :
    (serveWriteE wEnvSuccess).1.status = some 200 ∧
    (serveWriteE wEnvSuccess).1.sentHeaders = [] ∧
    ("X-InfluxDB-Index", "42") ∈ (serveWriteE wEnvSuccess).1.headers ∧
    (serveWriteE wEnvSuccess).2 = true := by
  refine ⟨by decide, by decide, ?_, by decide⟩
  have h : (serveWriteE wEnvSuccess).1.headers = [("X-InfluxDB-Index", "42")] := by decide
  rw [h]
  simp

/-- Claim C6: the write validation steps run in the order decode, non-empty
database name, database existence, authentication, authorization, and the
status reflects the first failing step: a decode error whose message is EOF
gives success with no body and no write applied; a decoded batch with an empty
database gives internal error; a non-empty database that does not exist gives
not found; a missing or unauthorized principal under required authentication
gives unauthorized.  Each arm holds for every environment satisfying only the
conditions of the earlier steps, which is exactly first-failure precedence. -/
theorem serveWrite_validation_order (env : WriteEnv) :
    (env.decode = Except.error "EOF" →
      serveWriteE env = ((RW.init : RW String).writeHeader 200, false)) ∧
    (∀ bp, env.decode = Except.ok bp → bp.database = "" →
      (serveWriteE env).1.status = some 500 ∧ (serveWriteE env).2 = false) ∧
    (∀ bp, env.decode = Except.ok bp → bp.database ≠ "" →
      env.dbExists bp.database = false →
      (serveWriteE env).1.status = some 404 ∧ (serveWriteE env).2 = false) ∧
    (∀ bp, env.decode = Except.ok bp → bp.database ≠ "" →
      env.dbExists bp.database = true → env.requireAuthentication = true →
      (env.user = none ∨ userAuthorize env.user bp.database = false) →
      (serveWriteE env).1.status = some 401 ∧ (serveWriteE env).2 = false) := by
  refine ⟨?_, ?_, ?_, ?_⟩
  · intro hd
    simp [serveWriteE, hd]
  · intro bp hd hdb
    simp [serveWriteE, hd, hdb, writeErrorE, RW.write, RW.writeHeader, RW.headerAdd, RW.init]
  · intro bp hd hdb hex
    simp [serveWriteE, hd, hdb, hex, writeErrorE, RW.write, RW.writeHeader, RW.headerAdd,
      RW.init]
  · intro bp hd hdb hex hra hu
    rcases hu with hu | hu
    · simp [serveWriteE, hd, hdb, hex, hra, hu, writeErrorE, RW.write, RW.writeHeader,
        RW.headerAdd, RW.init]
    · have hnone : env.user.isNone = true ∨ env.user.isNone = false := by
        cases env.user <;> simp
      rcases hnone with hn | hn
      · simp [serveWriteE, hd, hdb, hex, hra, hn, writeErrorE, RW.write, RW.writeHeader,
          RW.headerAdd, RW.init]
      · simp [serveWriteE, hd, hdb, hex, hra, hn, hu, writeErrorE, RW.write, RW.writeHeader,
          RW.headerAdd, RW.init]

/-- Witness for claim C6: all four validation outcomes at concrete
environments. -/
theorem serveWrite_validation_order_witness :
    serveWriteE wEnvEOF = ((RW.init : RW String).writeHeader 200, false) ∧
    ((serveWriteE wEnvEmptyDB).1.status = some 500 ∧ (serveWriteE wEnvEmptyDB).2 = false) ∧
    ((serveWriteE wEnvNoDB).1.status = some 404 ∧ (serveWriteE wEnvNoDB).2 = false) ∧
    ((serveWriteE wEnvNoUser).1.status = some 401 ∧ (serveWriteE wEnvNoUser).2 = false) :=
  ⟨(serveWrite_validation_order wEnvEOF).1 rfl,
   (serveWrite_validation_order wEnvEmptyDB).2.1 ⟨"", ""⟩ rfl rfl,
   (serveWrite_validation_order wEnvNoDB).2.2.1 ⟨"db1", ""⟩ rfl (by decide) rfl,
   (serveWrite_validation_order wEnvNoUser).2.2.2 ⟨"db1", ""⟩ rfl (by decide) rfl rfl
     (Or.inl rfl)⟩

/-! ### Claims about serveWait and the join loops -/

theorem waitLoop_none (idx : Nat → Nat) (aborted : Nat → Bool) (target : Nat)
    (hidx : ∀ k, idx k < target) (hab : ∀ k, aborted k = false) :
    ∀ (fuel k : Nat), waitLoop idx aborted (fun _ => false) target k fuel = none := by
  intro fuel
  induction fuel with
  | zero => intro k; rfl
  | succ fuel ih =>
    intro k
    have h1 : ¬ target ≤ idx k := Nat.not_le.mpr (hidx k)
    simp [waitLoop, h1, hab k, ih]

/-- Claim C7: every wait request whose parsed index is zero receives status
400 immediately, with no body, regardless of the timeout, the replication
index trajectory, the abort and timer signals and the polling budget; the
polling loop is never entered (second component false). -/
theorem serveWait_zero_index_bad_request (rawIndex rawTimeout : String)
    (idx : Nat → Nat) (aborted timerFired : Nat → Bool) (fuel : Nat)
    (h : goParseUint64 rawIndex = 0) :
    serveWaitE rawIndex rawTimeout idx aborted timerFired fuel
      = ((RW.init : RW Nat).writeHeader 400, false) := by
  simp [serveWaitE, h]

/-- Witness for claim C7 at the literal path parameter 0. -/
theorem serveWait_zero_index_bad_request_witness :
    serveWaitE "0" "250" (fun _ => 9) (fun _ => false) (fun _ => false) 3
      = ((RW.init : RW Nat).writeHeader 400, false) :=
  serveWait_zero_index_bad_request "0" "250" (fun _ => 9) (fun _ => false) (fun _ => false) 3
    (by decide)

/-- Claim C10: parse errors on both serveWait parameters are silently ignored:
a non-numeric index parses to zero, making the request indistinguishable from
an explicit index of zero (rejected with bad request); a missing or
non-numeric timeout parses to zero, so the timer goroutine is never started
and, when the index is never reached and the client never disconnects, the
handler keeps polling forever: no response is produced at any polling budget,
in particular never the request-timeout status. -/
theorem serveWait_parse_errors_ignored :
    (∀ s : String, digitsVal? s.toList = none → goParseUint64 s = 0) ∧
    (∀ (s rawTimeout : String) (idx : Nat → Nat) (aborted timerFired : Nat → Bool)
        (fuel : Nat),
      digitsVal? s.toList = none →
      serveWaitE s rawTimeout idx aborted timerFired fuel
        = serveWaitE "0" rawTimeout idx aborted timerFired fuel) ∧
    (∀ s : String, atoiParse s.toList = none → goAtoi s = 0) ∧
    (∀ (rawIndex rawTimeout : String) (idx : Nat → Nat) (aborted timerFired : Nat → Bool)
        (fuel : Nat),
      goAtoi rawTimeout ≤ 0 →
      goParseUint64 rawIndex ≠ 0 →
      (∀ k, idx k < goParseUint64 rawIndex) →
      (∀ k, aborted k = false) →
      serveWaitE rawIndex rawTimeout idx aborted timerFired fuel
        = ((RW.init : RW Nat), true)) := by
  have h00 : goParseUint64 "0" = 0 := by decide
  refine ⟨?_, ?_, ?_, ?_⟩
  · intro s h
    have h2 : digitsVal? s.data = none := h
    simp [goParseUint64, h2]
  · intro s rawTimeout idx aborted timerFired fuel h
    have h2 : digitsVal? s.data = none := h
    have hs : goParseUint64 s = 0 := by simp [goParseUint64, h2]
    simp [serveWaitE, hs, h00]
  · intro s h
    have h2 : atoiParse s.data = none := h
    simp [goAtoi, h2]
  · intro rawIndex rawTimeout idx aborted timerFired fuel ht hne hidx hab
    have htpos : ¬ goAtoi rawTimeout > 0 := by omega
    simp only [serveWaitE, if_neg hne, if_neg htpos]
    rw [waitLoop_none idx aborted (goParseUint64 rawIndex) hidx hab fuel 0]

/-- Witness for claim C10 at concrete non-numeric parameters. -/
theorem serveWait_parse_errors_ignored_witness :
    goParseUint64 "abc" = 0 ∧
    serveWaitE "abc" "5" (fun _ => 9) (fun _ => false) (fun _ => false) 3
      = serveWaitE "0" "5" (fun _ => 9) (fun _ => false) (fun _ => false) 3 ∧
    goAtoi "xyz" = 0 ∧
    serveWaitE "7" "xyz" (fun _ => 3) (fun _ => false) (fun _ => false) 5
      = ((RW.init : RW Nat), true) :=
  ⟨serveWait_parse_errors_ignored.1 "abc" (by decide),
   serveWait_parse_errors_ignored.2.1 "abc" "5" (fun _ => 9) (fun _ => false)
     (fun _ => false) 3 (by decide),
   serveWait_parse_errors_ignored.2.2.1 "xyz" (by decide),
   serveWait_parse_errors_ignored.2.2.2 "7" "xyz" (fun _ => 3) (fun _ => false)
     (fun _ => false) 5 (by decide) (by decide)
     (by intro k; show (3 : Nat) < goParseUint64 "7"; decide) (fun _ => rfl)⟩

/-- Claim C8: both bootstrap join loops attempt the candidates strictly in
listed order; the attempted list is the failing prefix followed by the first
succeeding candidate when one exists (no further attempts after the first
success), and the outcome flag is true exactly when some candidate succeeds;
when every candidate fails the flag is false, which in the source is the
log.Fatalf call terminating the process. -/
theorem joinRetry_first_success_or_fatal {U : Type u} (join : U → Bool)
    (selfURL : U) (join2 : U → U → Bool) (urls : List U) :
    joinBrokerRun join urls
      = (urls.takeWhile (fun u => !(join u))
          ++ (urls.dropWhile (fun u => !(join u))).take 1,
        urls.any join) ∧
    joinServerRun selfURL join2 urls
      = (urls.takeWhile (fun u => !(join2 selfURL u))
          ++ (urls.dropWhile (fun u => !(join2 selfURL u))).take 1,
        urls.any (fun u => join2 selfURL u)) := by
  constructor
  · induction urls with
    | nil => rfl
    | cons u rest ih =>
      by_cases h : join u = true
      · simp [joinBrokerRun, h]
      · have h2 : join u = false := by simpa using h
        simp [joinBrokerRun, h2, ih]
  · induction urls with
    | nil => rfl
    | cons u rest ih =>
      by_cases h : join2 selfURL u = true
      · simp [joinServerRun, h]
      · have h2 : join2 selfURL u = false := by simpa using h
        simp [joinServerRun, h2, ih]

/-! ### Claims about serveDump -/

theorem RW.writeHeader_body {β : Type u} (w : RW β) (c : Nat) :
    (w.writeHeader c).body = w.body := by
  cases h : w.status <;> simp [RW.writeHeader, h]

theorem httpErrorE_body {C : Type} (w : RW (DumpLine C)) (msg : String) (code : Nat) :
    (httpErrorE w msg code).body = w.body ++ [DumpLine.errBody msg] := by
  simp [httpErrorE, RW.write_body, RW.writeHeader_body, RW.headerAdd]

theorem tuplesGo_shape {C : Type} (env : DumpEnv C) (cols : List String) :
    ∀ (ts : List (List C)) (pt : PointM C) (w : RW (DumpLine C)),
      (∃ w2 t, tuplesGo env cols pt w ts = .ok w2 ∧ w2.body = w.body ++ t ∧
        (∀ l ∈ t, ∃ b, l = DumpLine.batch b)) ∨
      (∃ w2 t, tuplesGo env cols pt w ts = .error w2 ∧
        w2.body = w.body ++ t ++ [DumpLine.sentinel] ∧
        (∀ l ∈ t, ∃ b, l = DumpLine.batch b)) := by
  intro ts
  induction ts with
  | nil =>
    intro pt w
    exact Or.inl ⟨w, [], rfl, by simp, by simp⟩
  | cons t ts ih =>
    intro pt w
    by_cases henc : ∃ e, env.encode ⟨env.db, "default", [tupleStep env.asTime cols pt t]⟩
        = .error e
    · rcases henc with ⟨e, henc⟩
      refine Or.inr ⟨w.write .sentinel, [], ?_, ?_, by simp⟩
      · simp [tuplesGo, henc]
      · simp [RW.write_body]
    · have hok : env.encode ⟨env.db, "default", [tupleStep env.asTime cols pt t]⟩ = .ok () := by
        cases h : env.encode ⟨env.db, "default", [tupleStep env.asTime cols pt t]⟩ with
        | error e => exact absurd ⟨e, h⟩ henc
        | ok u => cases u; rfl
      have hstep : tuplesGo env cols pt w (t :: ts)
          = tuplesGo env cols (tupleStep env.asTime cols pt t)
              (w.write (.batch ⟨env.db, "default", [tupleStep env.asTime cols pt t]⟩)) ts := by
        simp [tuplesGo, hok]
      rcases ih (tupleStep env.asTime cols pt t)
          (w.write (.batch ⟨env.db, "default", [tupleStep env.asTime cols pt t]⟩)) with
        ⟨w2, tl, h1, h2, h3⟩ | ⟨w2, tl, h1, h2, h3⟩
      · refine Or.inl ⟨w2, .batch ⟨env.db, "default", [tupleStep env.asTime cols pt t]⟩ :: tl,
          ?_, ?_, ?_⟩
        · rw [hstep, h1]
        · rw [h2, RW.write_body]; simp
        · intro l hl
          rcases List.mem_cons.mp hl with h | h
          · exact ⟨_, h⟩
          · exact h3 l h
      · refine Or.inr ⟨w2, .batch ⟨env.db, "default", [tupleStep env.asTime cols pt t]⟩ :: tl,
          ?_, ?_, ?_⟩
        · rw [hstep, h1]
        · rw [h2, RW.write_body]; simp
        · intro l hl
          rcases List.mem_cons.mp hl with h | h
          · exact ⟨_, h⟩
          · exact h3 l h

theorem rowsGo_shape {C : Type} (env : DumpEnv C) :
    ∀ (rows : List (DumpRow C)) (w : RW (DumpLine C)),
      (∃ w2 t, rowsGo env w rows = .ok w2 ∧ w2.body = w.body ++ t ∧
        (∀ l ∈ t, ∃ b, l = DumpLine.batch b)) ∨
      (∃ w2 t, rowsGo env w rows = .error w2 ∧
        w2.body = w.body ++ t ++ [DumpLine.sentinel] ∧
        (∀ l ∈ t, ∃ b, l = DumpLine.batch b)) := by
  intro rows
  induction rows with
  | nil =>
    intro w
    exact Or.inl ⟨w, [], rfl, by simp, by simp⟩
  | cons row rest ih =>
    intro w
    rcases tuplesGo_shape env row.columns row.values ⟨row.name, row.tags, none, []⟩ w with
      ⟨w1, t1, h1, h2, h3⟩ | ⟨w1, t1, h1, h2, h3⟩
    · have hstep : rowsGo env w (row :: rest) = rowsGo env w1 rest := by
        simp [rowsGo, h1]
      rcases ih w1 with ⟨w2, t2, g1, g2, g3⟩ | ⟨w2, t2, g1, g2, g3⟩
      · refine Or.inl ⟨w2, t1 ++ t2, by rw [hstep, g1], ?_, ?_⟩
        · rw [g2, h2, List.append_assoc]
        · intro l hl
          rcases List.mem_append.mp hl with h | h
          · exact h3 l h
          · exact g3 l h
      · refine Or.inr ⟨w2, t1 ++ t2, by rw [hstep, g1], ?_, ?_⟩
        · rw [g2, h2]; simp [List.append_assoc]
        · intro l hl
          rcases List.mem_append.mp hl with h | h
          · exact h3 l h
          · exact g3 l h
    · refine Or.inr ⟨w1, t1, ?_, h2, h3⟩
      simp [rowsGo, h1]

theorem resultsGo_shape {C : Type} (env : DumpEnv C) :
    ∀ (results : List (QResult (DumpRow C))) (w : RW (DumpLine C)),
      (∃ w2 t, resultsGo env w results = .ok w2 ∧ w2.body = w.body ++ t ∧
        (∀ l ∈ t, ∃ b, l = DumpLine.batch b)) ∨
      (∃ w2 t, resultsGo env w results = .error w2 ∧
        w2.body = w.body ++ t ++ [DumpLine.sentinel] ∧
        (∀ l ∈ t, ∃ b, l = DumpLine.batch b)) := by
  intro results
  induction results with
  | nil =>
    intro w
    exact Or.inl ⟨w, [], rfl, by simp, by simp⟩
  | cons r rest ih =>
    intro w
    rcases rowsGo_shape env r.series w with
      ⟨w1, t1, h1, h2, h3⟩ | ⟨w1, t1, h1, h2, h3⟩
    · have hstep : resultsGo env w (r :: rest) = resultsGo env w1 rest := by
        simp [resultsGo, h1]
      rcases ih w1 with ⟨w2, t2, g1, g2, g3⟩ | ⟨w2, t2, g1, g2, g3⟩
      · refine Or.inl ⟨w2, t1 ++ t2, by rw [hstep, g1], ?_, ?_⟩
        · rw [g2, h2, List.append_assoc]
        · intro l hl
          rcases List.mem_append.mp hl with h | h
          · exact h3 l h
          · exact g3 l h
      · refine Or.inr ⟨w2, t1 ++ t2, by rw [hstep, g1], ?_, ?_⟩
        · rw [g2, h2]; simp [List.append_assoc]
        · intro l hl
          rcases List.mem_append.mp hl with h | h
          · exact h3 l h
          · exact g3 l h
    · refine Or.inr ⟨w1, t1, ?_, h2, h3⟩
      simp [resultsGo, h1]

/-- Claim C5, counterexample: after the first measurement has flushed one
batch line, the parse of the second measurement fails mid-stream, yet no
sentinel line is written: the handler reports through httpError with a JSON
error body (handler.go lines 408-411), contradicting the claim that every
mid-stream failure writes the literal sentinel error line. -/
theorem serveDump_parse_failure_no_sentinel :
    (serveDumpE dumpEnvCex).body
      = [DumpLine.batch dumpBatchCex, DumpLine.errBody "error with dump: boom"] ∧
    ¬ DumpLine.sentinel ∈ (serveDumpE dumpEnvCex).body := by
  refine ⟨by decide, by decide⟩

/-- Claim C5 (amended): a mid-stream query-execution failure or JSON-encode
failure writes the literal sentinel error line and stops; a per-measurement
parse failure instead writes a JSON error body line through httpError and
stops; in every case the lines already flushed are preserved, only appended
to.  Conjunct one is the no-retraction property; conjunct two the parse
failure arm, conjunct three the execute failure arm, conjunct four the encode
failure arm, whose stream ends with the sentinel after the batch lines flushed
before the failure. -/
theorem serveDump_stream_failure_spec {C : Type} (env : DumpEnv C) :
    (∀ (ms : List String) (w : RW (DumpLine C)),
      ∃ t, (dumpMeasGo env w ms).body = w.body ++ t) ∧
    (∀ (w : RW (DumpLine C)) (m : String) (rest : List String) (e : String),
      env.parse m = .error e →
      (dumpMeasGo env w (m :: rest)).body
        = w.body ++ [DumpLine.errBody ("error with dump: " ++ e)]) ∧
    (∀ (w : RW (DumpLine C)) (m : String) (rest : List String) (e : String),
      env.parse m = .ok () → env.exec m = .error e →
      (dumpMeasGo env w (m :: rest)).body = w.body ++ [DumpLine.sentinel]) ∧
    (∀ (w : RW (DumpLine C)) (m : String) (rest : List String)
        (results : List (QResult (DumpRow C))) (w2 : RW (DumpLine C)),
      env.parse m = .ok () → env.exec m = .ok results →
      resultsGo env w results = .error w2 →
      dumpMeasGo env w (m :: rest) = w2 ∧
      ∃ t, w2.body = w.body ++ t ∧ t ≠ [] ∧ t.getLast? = some DumpLine.sentinel ∧
        (∀ l ∈ t.dropLast, ∃ b, l = DumpLine.batch b)) := by
  refine ⟨?_, ?_, ?_, ?_⟩
  · intro ms
    induction ms with
    | nil => intro w; exact ⟨[], by simp [dumpMeasGo]⟩
    | cons m rest ih =>
      intro w
      cases hp : env.parse m with
      | error e =>
        refine ⟨[DumpLine.errBody ("error with dump: " ++ e)], ?_⟩
        simp [dumpMeasGo, hp, httpErrorE_body]
      | ok u =>
        cases u
        cases hx : env.exec m with
        | error e =>
          refine ⟨[DumpLine.sentinel], ?_⟩
          simp [dumpMeasGo, hp, hx, RW.write_body]
        | ok results =>
          rcases resultsGo_shape env results w with
            ⟨w1, t1, h1, h2, _⟩ | ⟨w1, t1, h1, h2, _⟩
          · rcases ih w1 with ⟨t2, g2⟩
            refine ⟨t1 ++ t2, ?_⟩
            have hstep : dumpMeasGo env w (m :: rest) = dumpMeasGo env w1 rest := by
              simp [dumpMeasGo, hp, hx, h1]
            rw [hstep, g2, h2, List.append_assoc]
          · refine ⟨t1 ++ [DumpLine.sentinel], ?_⟩
            have hstep : dumpMeasGo env w (m :: rest) = w1 := by
              simp [dumpMeasGo, hp, hx, h1]
            rw [hstep, h2, List.append_assoc]
  · intro w m rest e hp
    simp [dumpMeasGo, hp, httpErrorE_body]
  · intro w m rest e hp hx
    simp [dumpMeasGo, hp, hx, RW.write_body]
  · intro w m rest results w2 hp hx hres
    refine ⟨by simp [dumpMeasGo, hp, hx, hres], ?_⟩
    rcases resultsGo_shape env results w with
      ⟨w1, t1, h1, _, _⟩ | ⟨w1, t1, h1, h2, h3⟩
    · rw [hres] at h1; cases h1
    · rw [hres] at h1
      injection h1 with h1
      subst h1
      refine ⟨t1 ++ [DumpLine.sentinel], by simpa [List.append_assoc] using h2, by simp,
        List.getLast?_concat _, ?_⟩
      rw [List.dropLast_concat]
      exact h3

/-- Witness for claim C5 at concrete environments covering all four arms:
the no-retraction and parse-failure arms on the counterexample environment,
the execute-failure and encode-failure arms on environments failing there. -/
theorem serveDump_stream_failure_spec_witness :
    (∃ t, (dumpMeasGo dumpEnvCex RW.init ["m1", "m2"]).body
      = (RW.init : RW (DumpLine Nat)).body ++ t) ∧
    ((dumpMeasGo dumpEnvCex RW.init ["m2"]).body
      = (RW.init : RW (DumpLine Nat)).body
          ++ [DumpLine.errBody ("error with dump: " ++ "boom")]) ∧
    ((dumpMeasGo (⟨"db0", .ok ["m1"], fun _ => .ok (), fun _ => .error "efail",
        fun _ => none, fun _ => .ok ()⟩ : DumpEnv Nat) RW.init ["m1", "m9"]).body
      = (RW.init : RW (DumpLine Nat)).body ++ [DumpLine.sentinel]) ∧
    (dumpMeasGo (⟨"db0", .ok ["m1"], fun _ => .ok (), fun _ => .ok [⟨0, [dumpRowCex], none⟩],
        fun _ => none, fun _ => .error "marshal"⟩ : DumpEnv Nat) RW.init ["m1"]
      = (RW.init : RW (DumpLine Nat)).write .sentinel ∧
    ∃ t, ((RW.init : RW (DumpLine Nat)).write .sentinel).body
        = (RW.init : RW (DumpLine Nat)).body ++ t ∧ t ≠ [] ∧
      t.getLast? = some DumpLine.sentinel ∧
      (∀ l ∈ t.dropLast, ∃ b, l = DumpLine.batch b)) :=
  ⟨(serveDump_stream_failure_spec dumpEnvCex).1 ["m1", "m2"] RW.init,
   (serveDump_stream_failure_spec dumpEnvCex).2.1 RW.init "m2" [] "boom" (by decide),
   (serveDump_stream_failure_spec _).2.2.1 RW.init "m1" ["m9"] "efail" (by decide) (by decide),
   (serveDump_stream_failure_spec _).2.2.2 RW.init "m1" [] [⟨0, [dumpRowCex], none⟩]
     ((RW.init : RW (DumpLine Nat)).write .sentinel) (by decide) (by decide) (by decide)⟩

/-! ### Lemmas about the wrapping-counter mapper loop -/

theorem wrap64_mem_range (n : Int) : -(2 ^ 63) ≤ wrap64 n ∧ wrap64 n ≤ 2 ^ 63 - 1 := by
  unfold wrap64
  omega

theorem mapperLoopW_raw_eq_mapperLoop {V : Type u} (next : Nat → Except String (Option V))
    (isEmpty : Nat → Bool) :
    ∀ (fuel k : Nat) (cs : Int),
      mapperLoopW next isEmpty true cs k fuel = mapperLoop next isEmpty true cs k fuel := by
  intro fuel
  induction fuel with
  | zero => intro k cs; rfl
  | succ fuel ih =>
    intro k cs
    simp only [mapperLoopW, mapperLoop]
    cases next k with
    | error e => rfl
    | ok v =>
      by_cases h1 : (v.isNone && isEmpty (k + 1)) = true
      · simp [h1]
      · simp only [h1, Bool.false_eq_true, if_false, if_true]
        by_cases h2 : isEmpty (k + 1) = true
        · simp [h2]
        · simp [h2, ih (k + 1) cs]

theorem mapperLoopW_counter_stop :
    ∀ (m : Nat) (c : Int) (k : Nat),
      1 ≤ m → m ≤ 2 ^ 64 → (c - (m : Int)) % 2 ^ 64 = 0 →
      -(2 ^ 63) ≤ c → c ≤ 2 ^ 63 - 1 →
      mapperLoopW (fun _ => Except.ok (some (0 : Nat))) (fun _ => false) false c k m
        = some (List.replicate m (Frame.interval (some 0)) ++ [Frame.completed]) := by
  intro m
  induction m with
  | zero => intro c k h1; exact absurd h1 (by decide)
  | succ m ih =>
    intro c k h1 h2 h3 hlo hhi
    push_cast at h3
    by_cases hm : m = 0
    · subst hm
      have hz : wrap64 (c - 1) = 0 := by unfold wrap64; omega
      simp [mapperLoopW, hz, List.replicate]
    · have hm1 : 1 ≤ m := Nat.one_le_iff_ne_zero.mpr hm
      have hw : wrap64 (c - 1) = (c - 1 + 2 ^ 63) % 2 ^ 64 - 2 ^ 63 := rfl
      have hnz : ¬ (wrap64 (c - 1) = 0) := by
        rw [hw]
        omega
      have hrange := wrap64_mem_range (c - 1)
      have h3x : (wrap64 (c - 1) - (m : Int)) % 2 ^ 64 = 0 := by
        rw [hw]
        omega
      have hrec := ih (wrap64 (c - 1)) (k + 1) hm1 (by omega) h3x hrange.1 hrange.2
      simp only [mapperLoopW, hrec]
      simp [hnz, List.replicate_succ]

theorem mapperLoopW_agg_eq_raw {V : Type u} (next : Nat → Except String (Option V))
    (isEmpty : Nat → Bool) :
    ∀ (fuel k : Nat) (c : Int),
      -(2 ^ 63) ≤ c → c ≤ 2 ^ 63 - 1 → ((fuel : Int)) ≤ (c - 1) % 2 ^ 64 →
      mapperLoopW next isEmpty false c k fuel = mapperLoopW next isEmpty true c k fuel := by
  intro fuel
  induction fuel with
  | zero => intro k c _ _ _; rfl
  | succ fuel ih =>
    intro k c hlo hhi hfuel
    push_cast at hfuel
    have hw : wrap64 (c - 1) = (c - 1 + 2 ^ 63) % 2 ^ 64 - 2 ^ 63 := rfl
    have hnz : ¬ (wrap64 (c - 1) = 0) := by
      rw [hw]
      omega
    have hrange := wrap64_mem_range (c - 1)
    have hfuel2 : ((fuel : Int)) ≤ (wrap64 (c - 1) - 1) % 2 ^ 64 := by
      rw [hw]
      omega
    have hrec := ih (k + 1) (wrap64 (c - 1)) hrange.1 hrange.2 hfuel2
    have hraw : mapperLoopW next isEmpty true (wrap64 (c - 1)) (k + 1) fuel
        = mapperLoopW next isEmpty true c (k + 1) fuel := by
      rw [mapperLoopW_raw_eq_mapperLoop, mapperLoopW_raw_eq_mapperLoop]
      exact mapperLoop_raw_cs_irrelevant next isEmpty fuel (k + 1) _ _
    simp only [mapperLoopW]
    cases next k with
    | error e => rfl
    | ok v =>
      by_cases h1 : (v.isNone && isEmpty (k + 1)) = true
      · simp [h1]
      · simp only [h1, Bool.false_eq_true, if_false, if_neg hnz, if_true]
        by_cases h2 : isEmpty (k + 1) = true
        · simp [h2]
        · simp [h2, hrec, hraw]

/-- Claim C9, counterexample: the remaining-chunk counter is a wrapping 64-bit
machine integer, so with a chunk size of zero the counter-based stop does
fire: against a mapper that is never exhausted (the exhaustion predicate
constantly false) and always yields an interval value, the aggregate session
terminates with the completed frame after exactly 2^64 interval frames — the
wrapped counter, decremented before each comparison, has counted down to zero
— while a raw-mode session with the same budget is still running.  This
refutes the original claim that the counter-based stop never triggers and
that the session runs until the exhaustion predicate holds exactly as a
raw-mode session would. -/
theorem runMapper_zero_chunk_wrap_stops :
    mapperLoopW (fun _ => Except.ok (some (0 : Nat))) (fun _ => false) false 0 0 (2 ^ 64)
      = some (List.replicate (2 ^ 64) (Frame.interval (some 0)) ++ [Frame.completed]) ∧
    mapperLoopW (fun _ => Except.ok (some (0 : Nat))) (fun _ => false) true 0 0 (2 ^ 64)
      = none := by
  constructor
  · exact mapperLoopW_counter_stop (2 ^ 64) 0 0 (by norm_num) le_rfl (by omega)
      (by norm_num) (by norm_num)
  · rw [mapperLoopW_raw_eq_mapperLoop]
    exact mapperLoop_not_done (fun _ => Except.ok (some (0 : Nat))) (fun _ => false)
      (fun _ => some 0) (fun _ => rfl) (2 ^ 64) 0 0 (fun _ _ => rfl)

/-- Claim C9 (amended): with a zero or negative configured chunk size cs the
remaining-chunk counter is decremented before being compared to zero, so the
wrapping 64-bit counter first reaches zero only after 2^64 + cs decrements;
within any session of fewer interval frames than that — every physically
realizable session — the counter-based stop never triggers and the
aggregate-mode loop coincides with the raw-mode loop at any chunk-size
argument: it emits interval frames until the exhaustion predicate
IsEmpty(TMax) holds, exactly as a raw-mode session would. -/
theorem runMapper_nonpositive_chunk_wrap {V : Type u} (next : Nat → Except String (Option V))
    (isEmpty : Nat → Bool) (cs : Int) (hlo : -(2 ^ 63) ≤ cs) (hcs : cs ≤ 0) :
    ∀ (fuel : Nat) (cs2 : Int), ((fuel : Int)) < 2 ^ 64 + cs →
      mapperLoopW next isEmpty false cs 0 fuel = mapperLoopW next isEmpty true cs2 0 fuel := by
  intro fuel cs2 hfuel
  have h1 : ((fuel : Int)) ≤ (cs - 1) % 2 ^ 64 := by omega
  rw [mapperLoopW_agg_eq_raw next isEmpty fuel 0 cs hlo (by omega) h1,
    mapperLoopW_raw_eq_mapperLoop, mapperLoopW_raw_eq_mapperLoop]
  exact mapperLoop_raw_cs_irrelevant next isEmpty fuel 0 cs cs2

/-- Witness for claim C9 at chunk size zero against the raw loop with chunk
size 7, on a concrete mapper exhausted after two pulls, with a polling budget
of 6 frames, far below the 2^64 wrap horizon. -/
theorem runMapper_nonpositive_chunk_wrap_witness :
    mapperLoopW (fun j => Except.ok (some j)) (fun k => decide (2 ≤ k)) false 0 0 6
      = mapperLoopW (fun j => Except.ok (some j)) (fun k => decide (2 ≤ k)) true 7 0 6 :=
  runMapper_nonpositive_chunk_wrap (fun j => Except.ok (some j)) (fun k => decide (2 ≤ k))
    0 (by norm_num) le_rfl 6 7 (by norm_num)
